import Mathlib

/-!
Verification of the m2mclient protocol engine: a shallow embedding of the
bencode codec (src/m2mclient/bencode.py), the packet model and registry
(src/m2mclient/packetbase.py, src/m2mclient/packets.py), the dispatcher
(src/m2mclient/dispatcher.py) and the command/response correlation layer
(src/m2mclient/client.py), with theorems settling the frozen claims about
the natural-language specification.

Python values are modelled by `PyVal` (byte strings as lists of byte
codes, text, integers, lists, dicts as insertion-ordered association
lists, and None).  Python exceptions are modelled by `PyErr`.  Loops of
the source that can fail to terminate (the size scan of the bencode
decoder reads `b''` forever at end of input) are modelled with a fuel
parameter; the `.diverge` outcome reports a run that exhausts any fuel,
and the top-level entry points pass `2 * length + 4` fuel, which exceeds
the number of steps of every terminating run (every step of the decoder
either consumes an input byte or is one of the at most two bookkeeping
steps per consumed byte).
-/

namespace M2M

/-- Byte string of the ASCII codes of a Lean string literal (used to write
the byte literals of the source, e.g. `bstr "li0ee"` for `b"li0ee"`). -/
def bstr (s : String) : List Nat :=
  s.data.map Char.toNat

/-- `bytes.isdigit` on a single byte: ASCII `'0'` to `'9'`. -/
def isDigitByte (c : Nat) : Bool :=
  48 ≤ c && c ≤ 57

/-- Numeric value of a list of ASCII digit bytes (most significant first). -/
def natOfDigits (ds : List Nat) : Nat :=
  ds.foldl (fun acc d => acc * 10 + (d - 48)) 0

/-- ASCII decimal digits of a natural number, as Python's `str(n)` yields
for a non-negative `n`. -/
def natDec (n : Nat) : List Nat :=
  (Nat.toDigits 10 n).map Char.toNat

/-- ASCII decimal of an integer, as Python's `str(n)`: a leading `'-'`
for negative values. -/
def intDec (n : Int) : List Nat :=
  if n < 0 then 45 :: natDec n.natAbs else natDec n.natAbs

/-- UTF-8 encoding of a Lean string, as byte codes (Python
`str.encode('utf-8')`). -/
def utf8Bytes (s : String) : List Nat :=
  s.toUTF8.data.toList.map (fun b => b.toNat)

/-- A Python value as the m2mclient code manipulates them: byte strings,
text strings, integers, lists, dicts (insertion-ordered key/value pairs,
keys unique) and `None`. -/
inductive PyVal where
  | bytes (b : List Nat)
  | str (s : String)
  | int (n : Int)
  | list (l : List PyVal)
  | dict (d : List (PyVal × PyVal))
  | none

/-- The Python exceptions raised by the embedded code.  `fuelOut` is not a
Python exception: it is the fuel-model artifact used inside the encoder
(the encoder itself always terminates; the fuel passed to it is always
sufficient). -/
inductive PyErr where
  | decodeError (msg : String)
  | encodeError
  | valueError
  | keyError
  | nameError
  | typeError
  | packetFormatError
  | unknownPacketError
  | commandTimeout
  | commandError
  | commandFail (msg : String)
  | fuelOut
deriving DecidableEq

mutual

/-- Python `==` as used on the scalar values the embedded code compares
(dict keys and status strings); a bytes value never equals a text value
(Python 3 semantics). -/
def pyEq : PyVal → PyVal → Bool
  | .bytes a, .bytes b => a == b
  | .str a, .str b => a == b
  | .int a, .int b => a == b
  | .list a, .list b => pyEqList a b
  | .dict a, .dict b => pyEqPairs a b
  | .none, .none => true
  | _, _ => false

def pyEqList : List PyVal → List PyVal → Bool
  | [], [] => true
  | a :: as1, b :: bs1 => pyEq a b && pyEqList as1 bs1
  | _, _ => false

def pyEqPairs : List (PyVal × PyVal) → List (PyVal × PyVal) → Bool
  | [], [] => true
  | (k1, v1) :: r1, (k2, v2) :: r2 => pyEq k1 k2 && pyEq v1 v2 && pyEqPairs r1 r2
  | _, _ => false

end

/-- Insert a key/value pair into a Python dict: an existing key keeps its
position and gets the new value, a fresh key is appended. -/
def pyDictInsert : List (PyVal × PyVal) → PyVal → PyVal → List (PyVal × PyVal)
  | [], k, v => [(k, v)]
  | (k0, v0) :: rest, k, v =>
      if pyEq k0 k then (k0, v) :: rest else (k0, v0) :: pyDictInsert rest k v

/-- Python `dict(kv)` from a list of pairs: left-to-right insertion. -/
def pyDictOfPairs (kv : List (PyVal × PyVal)) : List (PyVal × PyVal) :=
  kv.foldl (fun d p => pyDictInsert d p.1 p.2) []

/-- Python `d.get(k, default)` on the pair list of a dict. -/
def pyPairsGetD (d : List (PyVal × PyVal)) (k defv : PyVal) : PyVal :=
  match d with
  | [] => defv
  | (k0, v0) :: rest => if pyEq k0 k then v0 else pyPairsGetD rest k defv

/-- ASCII whitespace bytes accepted by Python's `int()`. -/
def isSpaceByte (c : Nat) : Bool :=
  c == 32 || c == 9 || c == 10 || c == 13 || c == 11 || c == 12

/-- Digit groups of Python's integer literal grammar: digits with single
underscores allowed between digits. -/
def digitsGrouped : List Nat → Bool
  | [] => false
  | [c] => isDigitByte c
  | c :: d :: rest =>
      isDigitByte c &&
        (if d == 95 then
          match rest with
          | [] => false
          | e :: _ => isDigitByte e && digitsGrouped rest
        else digitsGrouped (d :: rest))

/-- Python `int(b)` on a byte string: optional surrounding whitespace, an
optional sign, then grouped decimal digits; anything else raises
`ValueError`. -/
def pyIntOfBytes (b : List Nat) : Except PyErr Int :=
  let s := (b.dropWhile isSpaceByte).reverse.dropWhile isSpaceByte |>.reverse
  let core : List Nat → Except PyErr Int := fun ds =>
    if digitsGrouped ds then .ok (natOfDigits (ds.filter (fun c => c != 95)))
    else .error .valueError
  match s with
  | 43 :: rest => core rest
  | 45 :: rest => (core rest).map (fun n => -n)
  | _ => core s

/-! ## The bencode decoder, src/m2mclient/bencode.py lines 75-126

`_decode(read)` reads from a `BytesIO`; a read past the end of the input
returns `b''`.  The input is modelled as the list of not yet consumed
bytes.  The size scan of the byte-string branch (lines 119-124) never
breaks at end of input (`b'' != b':'`), so it is modelled on fuel and
reported as `.diverge` when any amount of fuel runs out. -/

/-- Result of a decoding step: a value and the remaining input, a raised
exception, or a run that never terminates. -/
inductive DRes (α : Type) where
  | ok (v : α) (rest : List Nat)
  | err (e : PyErr)
  | diverge

/-- The size scan of the byte-string branch: accumulate bytes until a
`':'`; at end of input the loop spins forever (modelled by fuel). -/
def scanSize : Nat → List Nat → List Nat → DRes (List Nat)
  | 0, _, _ => .diverge
  | fuel + 1, acc, [] => scanSize fuel acc []
  | fuel + 1, acc, c :: rest =>
      if c == 58 then .ok acc rest else scanSize fuel (acc ++ [c]) rest

/-- The digit scan of the integer branch (lines 91-98): digits accumulate,
`'e'` breaks, anything else (including the empty read at end of input)
raises `DecodeError('illegal digit in size')`. -/
def scanIntDigits : List Nat → List Nat → DRes (List Nat)
  | _, [] => .err (.decodeError "illegal digit in size")
  | acc, c :: rest =>
      if isDigitByte c then scanIntDigits (acc ++ [c]) rest
      else if c == 101 then .ok acc rest
      else .err (.decodeError "illegal digit in size")

/-- `read(size)` on a `BytesIO`: at most `size` bytes, the whole rest for
a negative `size`. -/
def readN (n : Int) (input : List Nat) : List Nat × List Nat :=
  if n < 0 then (input, []) else (input.take n.toNat, input.drop n.toNat)

/-- The byte-string branch (lines 118-126): scan the size up to `':'`,
`int()` it, read that many bytes.  A short read is silently truncated. -/
def decodeSized (fuel : Nat) (acc input : List Nat) : DRes (Option PyVal) :=
  match scanSize fuel acc input with
  | .ok sizeBytes rest =>
      match pyIntOfBytes sizeBytes with
      | .ok n =>
          let r := readN n rest
          .ok (some (.bytes r.1)) r.2
      | .error e => .err e
  | .err e => .err e
  | .diverge => .diverge

/-- `_decode` returns `None` (modelled `Option.none`) for a bare `'e'`:
the end-of-container sentinel.  A dict value that is the sentinel is
stored as Python `None` (line 116 appends whatever `_decode` returned). -/
def sentinelToPy : Option PyVal → PyVal
  | Option.none => PyVal.none
  | some v => v

mutual

/-- `_decode(read)` of bencode.py: first byte selects the branch; an empty
first read (end of input) falls through to the byte-string branch with an
empty size accumulator, where the size scan spins forever. -/
def decodeVal : Nat → List Nat → DRes (Option PyVal)
  | 0, _ => .diverge
  | fuel + 1, [] => decodeSized fuel [] []
  | fuel + 1, c :: rest =>
      if c == 101 then .ok Option.none rest
      else if c == 105 then
        match scanIntDigits [] rest with
        | .ok ds rest2 =>
            match pyIntOfBytes ds with
            | .ok n => .ok (some (.int n)) rest2
            | .error e => .err e
        | .err e => .err e
        | .diverge => .diverge
      else if c == 108 then decodeItems fuel [] rest
      else if c == 100 then decodePairs fuel [] rest
      else decodeSized fuel [c] rest

/-- The list branch (lines 101-108): decode items until the sentinel. -/
def decodeItems : Nat → List PyVal → List Nat → DRes (Option PyVal)
  | 0, _, _ => .diverge
  | fuel + 1, acc, input =>
      match decodeVal fuel input with
      | .ok Option.none rest => .ok (some (.list acc)) rest
      | .ok (some v) rest => decodeItems fuel (acc ++ [v]) rest
      | .err e => .err e
      | .diverge => .diverge

/-- The dict branch (lines 109-117): decode key/value pairs until the
sentinel appears in key position, then build the dict. -/
def decodePairs : Nat → List (PyVal × PyVal) → List Nat → DRes (Option PyVal)
  | 0, _, _ => .diverge
  | fuel + 1, acc, input =>
      match decodeVal fuel input with
      | .ok Option.none rest => .ok (some (.dict (pyDictOfPairs acc))) rest
      | .ok (some k) rest =>
          match decodeVal fuel rest with
          | .ok vOpt rest2 => decodePairs fuel (acc ++ [(k, sentinelToPy vOpt)]) rest2
          | .err e => .err e
          | .diverge => .diverge
      | .err e => .err e
      | .diverge => .diverge

end

/-- Outcome of a whole-input operation (no remaining-input component). -/
inductive PRes (α : Type) where
  | ok (v : α)
  | err (e : PyErr)
  | diverge

/-- The public `decode(data)` (lines 75-78): run `_decode` on the whole
input; trailing unread bytes are ignored.  `2 * length + 4` fuel exceeds
the step count of every terminating run. -/
def pydecode (data : List Nat) : PRes (Option PyVal) :=
  match decodeVal (2 * data.length + 4) data with
  | .ok v _ => .ok v
  | .err e => .err e
  | .diverge => .diverge

/-! ## The bencode encoder, src/m2mclient/bencode.py lines 24-72

`encode` always terminates; the recursion is nevertheless written on fuel
because the dict branch recurses on the key-sorted pair list, which is
not a structural subterm.  `pyencode` passes the nesting depth of the
value, which is always sufficient, so `.fuelOut` never escapes it. -/

/-- Python `<` on the values that can be dict keys: bytes, text and
integers compare within their own type; a cross-type comparison raises
`TypeError` (Python 3). -/
def pyLt (a b : PyVal) : Except PyErr Bool :=
  match a, b with
  | .bytes x, .bytes y => .ok (decide (x < y))
  | .str x, .str y => .ok (decide (x < y))
  | .int x, .int y => .ok (decide (x < y))
  | _, _ => .error .typeError

/-- Stable insertion into an ascending list under `pyLt` (may raise). -/
def pyInsertPair (p : PyVal × PyVal) :
    List (PyVal × PyVal) → Except PyErr (List (PyVal × PyVal))
  | [] => .ok [p]
  | q :: rest =>
      match pyLt p.1 q.1 with
      | .error e => .error e
      | .ok true => .ok (p :: q :: rest)
      | .ok false =>
          match pyInsertPair p rest with
          | .ok r => .ok (q :: r)
          | .error e => .error e

/-- `sorted(obj.keys())` followed by the per-key lookup of lines 59-64,
modelled as sorting the key/value pairs by key (the keys of a Python dict
are unique, so the two are the same traversal). -/
def pySortPairs : List (PyVal × PyVal) → Except PyErr (List (PyVal × PyVal))
  | [] => .ok []
  | p :: rest =>
      match pySortPairs rest with
      | .ok r => pyInsertPair p r
      | .error e => .error e

mutual

/-- `add_encode` of bencode.py: bytes and text become size-prefixed byte
strings, integers `i...e`, lists `l...e`, dicts `d...e` with keys sorted
and required to be bytes; any other value raises `EncodeError`.  The
fuel decreases on every recursive call (so the recursion is structural
and computes); `pyencode` passes the always-sufficient bound `pySize`,
so `.fuelOut` never escapes it. -/
def addEncode : Nat → PyVal → Except PyErr (List Nat)
  | _, .bytes b => .ok (natDec b.length ++ 58 :: b)
  | _, .str s =>
      let b := utf8Bytes s
      .ok (natDec b.length ++ 58 :: b)
  | _, .int n => .ok (105 :: intDec n ++ [101])
  | _, .none => .error .encodeError
  | 0, .list _ => .error .fuelOut
  | fuel + 1, .list items =>
      match addEncodeList fuel items with
      | .ok parts => .ok (108 :: parts ++ [101])
      | .error e => .error e
  | 0, .dict _ => .error .fuelOut
  | fuel + 1, .dict d =>
      match pySortPairs d with
      | .ok sorted =>
          match addEncodePairs fuel sorted with
          | .ok parts => .ok (100 :: parts ++ [101])
          | .error e => .error e
      | .error e => .error e

def addEncodeList : Nat → List PyVal → Except PyErr (List Nat)
  | _, [] => .ok []
  | 0, _ :: _ => .error .fuelOut
  | fuel + 1, v :: rest =>
      match addEncode fuel v with
      | .ok ev =>
          match addEncodeList fuel rest with
          | .ok er => .ok (ev ++ er)
          | .error e => .error e
      | .error e => .error e

/-- Per-key loop of the dict branch: a non-bytes key raises `EncodeError`
before anything of the pair is emitted. -/
def addEncodePairs : Nat → List (PyVal × PyVal) → Except PyErr (List Nat)
  | _, [] => .ok []
  | 0, _ :: _ => .error .fuelOut
  | fuel + 1, (k, v) :: rest =>
      match k with
      | .bytes kb =>
          match addEncode fuel (.bytes kb) with
          | .ok ek =>
              match addEncode fuel v with
              | .ok ev =>
                  match addEncodePairs fuel rest with
                  | .ok er => .ok (ek ++ ev ++ er)
                  | .error e => .error e
              | .error e => .error e
          | .error e => .error e
      | _ => .error .encodeError

end

mutual

/-- Structural size of a value: the fuel bound passed to `addEncode`
(it dominates the recursion depth of every branch). -/
def pySize : PyVal → Nat
  | .list l => 1 + pySizeList l
  | .dict d => 1 + pySizePairs d
  | _ => 1

def pySizeList : List PyVal → Nat
  | [] => 0
  | v :: rest => 1 + pySize v + pySizeList rest

def pySizePairs : List (PyVal × PyVal) → Nat
  | [] => 0
  | (k, v) :: rest => 1 + pySize k + pySize v + pySizePairs rest

end

/-- The public `encode(obj)` (lines 24-72). -/
def pyencode (v : PyVal) : Except PyErr (List Nat) :=
  addEncode (pySize v) v

/-! ## Packet model and registry, src/m2mclient/packetbase.py and
src/m2mclient/packets.py -/

/-- The expected type of a declared packet attribute (`bytes`, `int`,
`list` or `dict` in packets.py). -/
inductive PyType where
  | tBytes
  | tInt
  | tList
  | tDict
deriving DecidableEq

/-- `isinstance(value, expected)` for the four attribute types. -/
def typeMatches : PyType → PyVal → Bool
  | .tBytes, .bytes _ => true
  | .tInt, .int _ => true
  | .tList, .list _ => true
  | .tDict, .dict _ => true
  | _, _ => false

/-- The registry built by `PacketMeta` from the class definitions of
packets.py: type tag to the declared ordered attribute list. -/
def registryList : List (Nat × List (String × PyType)) :=
  [ (0, []),                                               -- Null
    (1, []),                                               -- RequestJoin
    (2, [("uuid", .tBytes)]),                              -- RequestIdentify
    (3, []),                                               -- Welcome
    (4, [("text", .tBytes)]),                              -- Log
    (5, [("port", .tInt), ("data", .tBytes)]),             -- RequestSend
    (6, [("port", .tInt), ("data", .tBytes)]),             -- Route
    (7, [("data", .tBytes)]),                              -- Ping
    (8, [("data", .tBytes)]),                              -- Pong
    (9, [("identity", .tBytes)]),                          -- SetIdentity
    (11, [("port", .tInt)]),                               -- RequestClose
    (13, []),                                              -- KeepAlive
    (14, [("port", .tInt)]),                               -- NotifyOpen
    (15, [("username", .tBytes), ("password", .tBytes)]),  -- RequestLogin
    (16, [("sender", .tBytes), ("data", .tDict)]),         -- Instruction
    (17, [("user", .tBytes)]),                             -- NotifyLoginSuccess
    (18, [("message", .tBytes)]),                          -- NotifyLoginFail
    (19, [("port", .tInt)]),                               -- NotifyClose
    (20, []),                                              -- RequestLeave
    (21, [("port", .tInt), ("data", .tBytes)]),            -- RouteControl
    (22, [("port", .tInt), ("data", .tBytes)]),            -- RequestSendControl
    (23, [("name", .tBytes)]),                             -- NotifyName
    (100, [("command_id", .tInt), ("result", .tDict)]),    -- CommandResponse
    (101, [("command_id", .tInt), ("node1", .tBytes), ("port1", .tInt),
           ("node2", .tBytes), ("port2", .tInt), ("requester", .tBytes),
           ("forwarded", .tInt)]),                         -- CommandAddRoute
    (102, [("command_id", .tInt), ("node", .tBytes), ("data", .tDict)]),
    (103, [("command_id", .tInt), ("node", .tBytes), ("text", .tBytes)]),
    (104, [("command_id", .tInt), ("text", .tBytes)]),     -- CommandBroadcastLog
    (106, [("command_id", .tInt), ("node", .tBytes), ("name", .tBytes)]),
    (107, [("command_id", .tInt), ("nodes", .tList)]),     -- CommandCheckNodes
    (108, [("command_id", .tInt), ("nodes", .tList)]),     -- CommandGetIdentities
    (109, [("command_id", .tInt), ("expire", .tInt), ("value", .tBytes)]),
    (110, [("command_id", .tInt), ("requester", .tBytes), ("node", .tBytes),
           ("key", .tBytes), ("value", .tBytes)]),         -- CommandSetMeta
    (111, [("command_id", .tInt), ("requester", .tBytes), ("node", .tBytes)]) ]

/-- `cls.registry[tag]` as a lookup. -/
def registryOf (tag : Int) : Option (List (String × PyType)) :=
  (registryList.find? (fun e => (e.1 : Int) == tag)).map (fun e => e.2)

/-- A constructed packet: the type tag and the attribute values in
declared order. -/
structure Packet where
  type : Nat
  attrs : List (String × PyVal)

/-- `PacketBase.__init__` (packetbase.py lines 51-71) for positional
arguments, as `from_bytes` calls it: zip the arguments with the declared
attributes (extra arguments are silently dropped by `zip`), require every
declared attribute, transparently encode text to bytes, and check the
declared type; a violation raises `PacketFormatError`. -/
def packet_init (t : Nat) (schema : List (String × PyType)) (args : List PyVal) :
    Except PyErr Packet :=
  let params := (args.zip schema).map (fun p => (p.2.1, p.1))
  let check : List (String × PyType) → Except PyErr (List (String × PyVal)) :=
    fun s => s.mapM (fun a =>
      match params.find? (fun p => p.1 == a.1) with
      | Option.none => .error .packetFormatError
      | some p =>
          let v := match p.2 with
            | .str s0 => .bytes (utf8Bytes s0)
            | w => w
          if typeMatches a.2 v then .ok (a.1, v) else .error .packetFormatError)
  (check schema).map (fun ps => ⟨t, ps⟩)

/-- `PacketBase.from_bytes` (packetbase.py lines 104-126): require a
leading `'l'`, decode (re-raising `DecodeError` as `PacketFormatError`;
any other exception propagates), unpack the head (an empty list raises
`ValueError`), require an integer tag, look it up (a missing tag raises
`UnknownPacketError`) and construct the packet. -/
def from_bytes (data : List Nat) : PRes Packet :=
  match data with
  | 108 :: _ =>
      match pydecode data with
      | .ok v =>
          match v with
          | some (.list []) => .err .valueError
          | some (.list (t :: body)) =>
              match t with
              | .int n =>
                  match registryOf n with
                  | some schema =>
                      match n with
                      | .ofNat tn =>
                          match packet_init tn schema body with
                          | .ok p => .ok p
                          | .error e => .err e
                      | _ => .err .unknownPacketError
                  | Option.none => .err .unknownPacketError
              | _ => .err .packetFormatError
          | _ => .err .typeError
      | .err (.decodeError _) => .err .packetFormatError
      | .err e => .err e
      | .diverge => .diverge
  | _ => .err .packetFormatError

/-- `M2MPacket.peek_type` (packets.py lines 124-135): after a `b'li'`
head, split the next six bytes at the first `b'e'`; a non-empty
terminator with an all-digit head yields that number, anything else
`None`. -/
def splitAtByte (b : Nat) : List Nat → Option (List Nat × List Nat)
  | [] => Option.none
  | c :: rest =>
      if c == b then some ([], rest)
      else (splitAtByte b rest).map (fun p => (c :: p.1, p.2))

def peek_type (data : List Nat) : Option Nat :=
  match data with
  | 108 :: 105 :: rest =>
      match splitAtByte 101 (rest.take 6) with
      | some (ds, _) =>
          if ds ≠ [] && ds.all isDigitByte then some (natOfDigits ds) else Option.none
      | Option.none => Option.none
  | _ => Option.none

/-- The generic `PacketBase.as_bytes` (packetbase.py lines 136-143):
bencode of `[int(self.type), attr1, attr2, ...]` in declared order. -/
def as_bytes_generic (t : Nat) (attrs : List PyVal) : Except PyErr (List Nat) :=
  pyencode (.list (.int t :: attrs))

/-- `Null.as_bytes`, the precomputed constant of packets.py line 149. -/
def null_as_bytes : List Nat := bstr "li0ee"

/-- `Welcome.as_bytes`, the precomputed constant of packets.py line 169. -/
def welcome_as_bytes : List Nat := bstr "li3ee"

/-- `Log.as_bytes`, the shortcut `b'li4e%i:%se' % (len(text), text)`. -/
def log_as_bytes (text : List Nat) : List Nat :=
  bstr "li4e" ++ natDec text.length ++ 58 :: text ++ [101]

/-- `Route.as_bytes`, the shortcut
`b"li6ei%ie%i:%se" % (port, len(data), data)`. -/
def route_as_bytes (port : Int) (data : List Nat) : List Nat :=
  bstr "li6ei" ++ intDec port ++ 101 :: natDec data.length ++ 58 :: data ++ [101]

/-- `Ping.as_bytes`, the shortcut `b'li7e%i:%se' % (len(data), data)`. -/
def ping_as_bytes (data : List Nat) : List Nat :=
  bstr "li7e" ++ natDec data.length ++ 58 :: data ++ [101]

/-- `SetIdentity.as_bytes`, the shortcut
`b'li9e%i:%se' % (len(identity), identity)`. -/
def set_identity_as_bytes (identity : List Nat) : List Nat :=
  bstr "li9e" ++ natDec identity.length ++ 58 :: identity ++ [101]

/-- `NotifyOpen.as_bytes`, the shortcut `b'li14ei%iee' % self.port`. -/
def notify_open_as_bytes (port : Int) : List Nat :=
  bstr "li14ei" ++ intDec port ++ [101, 101]

/-- `NotifyClose.as_bytes`, the shortcut `b'li19ei%iee' % self.port`. -/
def notify_close_as_bytes (port : Int) : List Nat :=
  bstr "li19ei" ++ intDec port ++ [101, 101]

/-! ## The dispatcher, src/m2mclient/dispatcher.py -/

/-- A bound handler: the per-parameter coercion table built from the
method's parameter declarations (applied before invocation), and the
handler body. -/
structure Handler where
  annots : List (String × (PyVal → Except PyErr PyVal))
  body : List (String × PyVal) → Except PyErr PyVal

/-- The coercion loop of `dispatch_packet` (dispatcher.py lines 72-74):
`kwargs[name] = param_callable(kwargs[name])` for each declared
parameter; a missing name raises `KeyError`, and any exception of the
loop is caught by the caller. -/
def applyAnnots (annots : List (String × (PyVal → Except PyErr PyVal)))
    (kwargs : List (String × PyVal)) : Except PyErr (List (String × PyVal)) :=
  match annots with
  | [] => .ok kwargs
  | (name, f) :: rest =>
      match kwargs.find? (fun p => p.1 == name) with
      | Option.none => .error .keyError
      | some p =>
          match f p.2 with
          | .ok v =>
              applyAnnots rest
                (kwargs.map (fun q => if q.1 == name then (q.1, v) else q))
          | .error e => .error e

/-- Outcome of a dispatch: either the default unhandled hook ran (a
logged warning, dispatcher.py lines 84-86), or the handler body ran and
returned a value. -/
inductive DispatchOut where
  | missingHandler
  | handlerReturn (v : PyVal)

/-- `Dispatcher.dispatch_packet` (dispatcher.py lines 64-82): look up the
handler for the packet type; none runs `on_missing_handler` and returns;
otherwise apply the declared coercions (any failure is re-raised as
`PacketFormatError` without invoking the body) and invoke the body (whose
exceptions propagate). -/
def dispatch_packet (handlers : Nat → Option Handler) (p : Packet) :
    Except PyErr DispatchOut :=
  match handlers p.type with
  | Option.none => .ok .missingHandler
  | some h =>
      match applyAnnots h.annots p.attrs with
      | .error _ => .error .packetFormatError
      | .ok kwargs =>
          match h.body kwargs with
          | .ok v => .ok (.handlerReturn v)
          | .error e => .error e

/-! ## The command correlation layer, src/m2mclient/client.py -/

/-- A `CommandResult`: the originating command name, whether the
completion event fired, and the stored result (`None` until set;
`set(None)` on teardown stores `None` again, the two are
indistinguishable, as in the source). -/
structure CommandResultState where
  name : String
  eventSet : Bool
  result : PyVal

/-- A fresh `CommandResult(name)` (client.py lines 87-90). -/
def commandResult_new (name : String) : CommandResultState :=
  ⟨name, false, PyVal.none⟩

/-- `CommandResult.set` (client.py lines 95-99). -/
def commandResult_set (s : CommandResultState) (r : PyVal) : CommandResultState :=
  ⟨s.name, true, r⟩

/-- Python `str(x)` as `'{}'.format` uses it, for the values that can
reach the failure message (decoded values and the text defaults). -/
def pyFormat : PyVal → String
  | .str s => s
  | .int n => toString n
  | .bytes b => "b" ++ String.mk (b.map Char.ofNat)
  | .list _ => "[...]"
  | .dict _ => "\x7b...\x7d"
  | .none => "None"

/-- `CommandResult.get` (client.py lines 101-123) with the outcome of
`self._event.wait(timeout)` passed in as `arrived` and the stored result
as `result`: a timeout raises `CommandTimeout`; a `None` result raises
`CommandError('invalid response')`; a non-dict raises
`CommandFail('invalid response')`; then `status = result.get('status',
'fail')` (a text key, looked up in the stored mapping) and a status other
than `'ok'` raises `CommandFail('{status}; {msg}')`; otherwise the
mapping is returned. -/
def commandResult_get (arrived : Bool) (result : PyVal) : Except PyErr PyVal :=
  if !arrived then .error .commandTimeout
  else
    match result with
    | .none => .error .commandError
    | .dict d =>
        let status := pyPairsGetD d (.str "status") (.str "fail")
        if !(pyEq status (.str "ok")) then
          let msg := pyPairsGetD d (.str "msg") (.str "")
          .error (.commandFail (pyFormat status ++ "; " ++ pyFormat msg))
        else .ok result
    | _ => .error (.commandFail "invalid response")

/-- Remove the slot of a command id from the pending table
(`dict.pop`). -/
def popSlot (pending : List (Int × CommandResultState)) (cid : Int) :
    Option (CommandResultState × List (Int × CommandResultState)) :=
  match pending with
  | [] => Option.none
  | (k, s) :: rest =>
      if k == cid then some (s, rest)
      else (popSlot rest cid).map (fun p => (p.1, (k, s) :: p.2))

/-- `M2MClient.on_command` (client.py lines 277-286): pop the slot for
the response's command id and complete it with the result.  When the id
is unknown, `pop` raises `KeyError`; the handler catches it, logs, and
then evaluates `command_result.set(None)` — but `command_result` was
never bound on that path, so the branch raises `UnboundLocalError`
(a `NameError`), modelled as `.nameError`.  On success the updated
pending table and the completed slot are returned. -/
def on_command (pending : List (Int × CommandResultState)) (cid : Int)
    (result : PyVal) :
    Except PyErr (List (Int × CommandResultState) × CommandResultState) :=
  match popSlot pending cid with
  | some (slot, rest) => .ok (rest, commandResult_set slot result)
  | Option.none => .error .nameError

/-! ## The LRU Decode Cache

Modelled from the spec: the LRU Decode Cache (spec sections 2, 4.2) and
the caching decode path (section 4.1, "decode results for inputs shorter
than a fixed threshold (100 bytes ...) are memoized in the LRU Decode
Cache keyed by the exact input byte sequence; longer inputs bypass the
cache") have no implementation under src/ — the `decode` of
src/m2mclient/bencode.py calls `_decode` directly.  The definitions
below follow the spec's words: a fixed capacity set at construction,
`get` moves a hit to most-recently-used position, `put` inserts at
most-recently-used position and evicts the least-recently-used entry
when over capacity.  Entries are kept most-recently-used first. -/

structure LRUCache where
  capacity : Nat
  entries : List (List Nat × PRes (Option PyVal))

/-- Find a key; on a hit return its value and the entry list with that
entry removed (to be re-inserted at the front). -/
def lookupTake (k : List Nat) :
    List (List Nat × PRes (Option PyVal)) →
    Option (PRes (Option PyVal) × List (List Nat × PRes (Option PyVal)))
  | [] => Option.none
  | (k0, v0) :: rest =>
      if k0 == k then some (v0, rest)
      else (lookupTake k rest).map (fun p => (p.1, (k0, v0) :: p.2))

/-- Modelled from the spec: `get(key)`; a hit moves the entry to
most-recently-used position. -/
def LRUCache.getc (c : LRUCache) (k : List Nat) :
    Option (PRes (Option PyVal)) × LRUCache :=
  match lookupTake k c.entries with
  | some (v, rest) => (some v, ⟨c.capacity, (k, v) :: rest⟩)
  | Option.none => (Option.none, c)

/-- Modelled from the spec: `put(key, value)`; insert at
most-recently-used position (replacing any old entry for the key) and
evict the least-recently-used entry when over capacity. -/
def LRUCache.putc (c : LRUCache) (k : List Nat) (v : PRes (Option PyVal)) :
    LRUCache :=
  let rest := match lookupTake k c.entries with
    | some (_, r) => r
    | Option.none => c.entries
  ⟨c.capacity, ((k, v) :: rest).take c.capacity⟩

/-- Modelled from the spec: the caching decode path — inputs shorter than
100 bytes are looked up in and stored into the cache, longer inputs
bypass it. -/
def cachedDecode (c : LRUCache) (data : List Nat) :
    PRes (Option PyVal) × LRUCache :=
  if data.length < 100 then
    match c.getc data with
    | (some v, c2) => (v, c2)
    | (Option.none, c2) =>
        let r := pydecode data
        (r, c2.putc data r)
  else (pydecode data, c)

/-! ## Helper lemmas -/

/-- The size scan at end of input never terminates: the source's
`while 1` loop reads `b''` forever (bencode.py lines 120-124). -/
theorem scanSize_nil (f : Nat) (acc : List Nat) : scanSize f acc [] = .diverge := by
  induction f with
  | zero => rfl
  | succ n ih => simpa [scanSize] using ih

/-- `_decode` of the single byte `b'x'` runs out of any fuel: the run
never terminates. -/
theorem decodeVal_x_diverge (fuel : Nat) : decodeVal fuel (bstr "x") = .diverge := by
  cases fuel with
  | zero => rfl
  | succ n =>
      show decodeVal (n + 1) [120] = .diverge
      simp [decodeVal, decodeSized, scanSize_nil]

/-! ## Claim theorems -/

/-- C1: the claim says a response whose result mapping has status `'ok'`
makes `CommandResult.get` return the mapping; on the code, the mapping
decoded from the wire response `[100, 1, {b'status': b'ok'}]` has
byte-string keys, the text-key lookup `result.get('status', 'fail')`
misses, and `get` raises `CommandFail('fail; ')` instead of returning.
The timeout half of the claim does hold: a wait that expires raises
`CommandTimeout`. -/
theorem c1_wire_status_ok_still_fails :
    from_bytes (bstr "li100ei1ed6:status2:okee") =
      .ok ⟨100, [("command_id", PyVal.int 1),
                 ("result", PyVal.dict
                    [(PyVal.bytes (bstr "status"), PyVal.bytes (bstr "ok"))])]⟩
    ∧ on_command [((1 : Int), commandResult_new "command_add_route")] 1
        (PyVal.dict [(PyVal.bytes (bstr "status"), PyVal.bytes (bstr "ok"))]) =
      .ok ([], ⟨"command_add_route", true,
        PyVal.dict [(PyVal.bytes (bstr "status"), PyVal.bytes (bstr "ok"))]⟩)
    ∧ commandResult_get true
        (PyVal.dict [(PyVal.bytes (bstr "status"), PyVal.bytes (bstr "ok"))]) =
      .error (.commandFail "fail; ")
    ∧ (∀ r, commandResult_get false r = .error .commandTimeout) := by
  refine ⟨by rfl, by rfl, by rfl, fun r => rfl⟩

/-- C2: the claim says every allowed value round-trips through
encode/decode, integers of at least 64-bit range including negatives;
on the code, `encode(-1)` yields `b'i-1e'` but the decoder's digit scan
rejects the `'-'` byte (bencode.py lines 94-96), raising
`DecodeError('illegal digit in size')`, so negative integers do not
round-trip. -/
theorem c2_negative_int_roundtrip_raises :
    pyencode (.int (-1)) = .ok (bstr "i-1e")
    ∧ pydecode (bstr "i-1e") = .err (.decodeError "illegal digit in size") := by
  exact ⟨by rfl, by rfl⟩

/-- C3 counterexample: the claim says `decode(b"5:ab")` (declared length
exceeding the available bytes) fails with a decode error; on the code it
succeeds, returning the silently truncated byte string `b'ab'`. -/
theorem c3_counterexample :
    pydecode (bstr "5:ab") = .ok (some (.bytes (bstr "ab"))) := by
  rfl

/-- C3 amended: `decode(b"i12")` (unterminated integer) does fail with
`DecodeError`; but `decode(b"5:ab")` succeeds with the truncated bytes,
and `decode(b"x")` does not terminate at all (the size scan loops on the
empty read at end of input), so decode neither rejects every structural
violation nor always terminates. -/
theorem c3_amended :
    pydecode (bstr "i12") = .err (.decodeError "illegal digit in size")
    ∧ pydecode (bstr "5:ab") = .ok (some (.bytes (bstr "ab")))
    ∧ (∀ fuel, decodeVal fuel (bstr "x") = .diverge)
    ∧ pydecode (bstr "x") = .diverge := by
  exact ⟨by rfl, by rfl, decodeVal_x_diverge, by rfl⟩

/-- C4 counterexample: the claim says the public decode never returns the
end-of-container sentinel to its caller; on the code, `decode(b"e")`
returns exactly the sentinel (`_decode`'s `None`, bencode.py lines
87-89) — the public wrapper (lines 75-78) applies no guard. -/
theorem c4_counterexample :
    pydecode (bstr "e") = .ok Option.none := by
  rfl

/-- C4 amended: `decode(b"e")` returns the sentinel `None` to its caller;
inside list and map parsing the sentinel is consumed as the container
terminator (so `decode(b"le")` and `decode(b"de")` return the empty
containers, not the sentinel). -/
theorem c4_amended :
    pydecode (bstr "e") = .ok Option.none
    ∧ pydecode (bstr "le") = .ok (some (.list []))
    ∧ pydecode (bstr "de") = .ok (some (.dict [])) := by
  exact ⟨by rfl, by rfl, by rfl⟩

/-- C6: every packet variant with a precomputed or shortcut wire
representation (Null, Welcome, Log, Route, Ping, SetIdentity, NotifyOpen,
NotifyClose) produces, for every type-conformant attribute value,
exactly the bytes of the generic encoding path
`encode([type_tag, attr1, ...])`. -/
theorem c6_shortcut_matches_generic :
    as_bytes_generic 0 [] = .ok null_as_bytes
    ∧ as_bytes_generic 3 [] = .ok welcome_as_bytes
    ∧ (∀ text : List Nat,
        as_bytes_generic 4 [.bytes text] = .ok (log_as_bytes text))
    ∧ (∀ (port : Int) (data : List Nat),
        as_bytes_generic 6 [.int port, .bytes data] =
          .ok (route_as_bytes port data))
    ∧ (∀ data : List Nat,
        as_bytes_generic 7 [.bytes data] = .ok (ping_as_bytes data))
    ∧ (∀ identity : List Nat,
        as_bytes_generic 9 [.bytes identity] =
          .ok (set_identity_as_bytes identity))
    ∧ (∀ port : Int,
        as_bytes_generic 14 [.int port] = .ok (notify_open_as_bytes port))
    ∧ (∀ port : Int,
        as_bytes_generic 19 [.int port] = .ok (notify_close_as_bytes port)) := by
  refine ⟨by rfl, by rfl, fun text => ?_, fun port data => ?_, fun data => ?_,
    fun identity => ?_, fun port => ?_, fun port => ?_⟩
  · simp [as_bytes_generic, pyencode, pySize, pySizeList, addEncode, addEncodeList,
      log_as_bytes, bstr, natDec, show intDec (4 : Int) = [52] from rfl]
  · simp [as_bytes_generic, pyencode, pySize, pySizeList, addEncode, addEncodeList,
      route_as_bytes, bstr, natDec, show intDec (6 : Int) = [54] from rfl]
  · simp [as_bytes_generic, pyencode, pySize, pySizeList, addEncode, addEncodeList,
      ping_as_bytes, bstr, natDec, show intDec (7 : Int) = [55] from rfl]
  · simp [as_bytes_generic, pyencode, pySize, pySizeList, addEncode, addEncodeList,
      set_identity_as_bytes, bstr, natDec, show intDec (9 : Int) = [57] from rfl]
  · simp [as_bytes_generic, pyencode, pySize, pySizeList, addEncode, addEncodeList,
      notify_open_as_bytes, bstr, natDec,
      show intDec (14 : Int) = [49, 52] from rfl]
  · simp [as_bytes_generic, pyencode, pySize, pySizeList, addEncode, addEncodeList,
      notify_close_as_bytes, bstr, natDec,
      show intDec (19 : Int) = [49, 57] from rfl]

/-- `_decode` at end of input falls into the size scan and never
terminates. -/
theorem decodeVal_nil_diverge (fuel : Nat) : decodeVal fuel [] = .diverge := by
  cases fuel with
  | zero => rfl
  | succ n => simp [decodeVal, decodeSized, scanSize_nil]

/-- C7 counterexample: the claim says an empty top-level list fails with
`PacketFormatError`; on the code, `decode(b"le")` yields `[]` and the
unpacking `packet_type, *packet_body = packet_data` raises a bare
`ValueError`, which `from_bytes` does not catch. -/
theorem c7_counterexample :
    from_bytes (bstr "le") = .err .valueError := by
  rfl

/-- C7 amended: `from_wire` returns a packet for a decodable list whose
integer tag is registered and whose body fits the schema; an input not
starting with `b'l'`, a `DecodeError` inside decoding, a non-integer
first element, and a schema-violating body all fail with
`PacketFormatError`; an unregistered integer tag fails with
`UnknownPacketError`.  But three further outcomes exist: a decoded empty
list raises `ValueError` from tuple unpacking, a `ValueError` raised by
the decoder's size parsing propagates unwrapped, and a truncated
container such as `b"l"` does not terminate. -/
theorem c7_amended :
    (∀ data : List Nat, data.head? ≠ some 108 →
        from_bytes data = .err .packetFormatError)
    ∧ from_bytes (bstr "li12") = .err .packetFormatError
    ∧ from_bytes (bstr "l1:ae") = .err .packetFormatError
    ∧ from_bytes (bstr "li4ee") = .err .packetFormatError
    ∧ from_bytes (bstr "li99ee") = .err .unknownPacketError
    ∧ from_bytes (bstr "li0ee") = .ok ⟨0, []⟩
    ∧ from_bytes (bstr "li4e2:hie") =
        .ok ⟨4, [("text", PyVal.bytes (bstr "hi"))]⟩
    ∧ from_bytes (bstr "le") = .err .valueError
    ∧ from_bytes (bstr "lx:e") = .err .valueError
    ∧ (∀ fuel, decodeVal fuel (bstr "l") = .diverge)
    ∧ from_bytes (bstr "l") = .diverge := by
  refine ⟨?_, by rfl, by rfl, by rfl, by rfl, by rfl, by rfl, by rfl, by rfl,
    ?_, by rfl⟩
  · intro data h
    cases data with
    | nil => rfl
    | cons c rest =>
        simp only [List.head?] at h
        rw [from_bytes.eq_def]
        split
        · rename_i heq
          simp at heq
          simp [heq.1] at h
        · rfl
  · intro fuel
    cases fuel with
    | zero => rfl
    | succ n =>
        show decodeVal (n + 1) [108] = .diverge
        cases n with
        | zero => rfl
        | succ m => simp [decodeVal, decodeItems, decodeVal_nil_diverge]

/-- C7 witness: the general non-list branch of the amended theorem at the
concrete input `b"x"`. -/
theorem c7_witness :
    from_bytes (bstr "x") = .err .packetFormatError :=
  c7_amended.1 (bstr "x") (by decide)

/-- C8: a packet whose type has no registered handler runs the default
unhandled hook and dispatch returns normally; a packet whose registered
handler has a parameter coercion that fails is re-signalled as
`PacketFormatError`.  The handler `h` (and so its body) is universally
quantified and the failure outcome does not mention it, so the handler
body is never invoked on the failing path. -/
theorem c8_dispatch_behavior :
    (∀ (handlers : Nat → Option Handler) (p : Packet),
        handlers p.type = Option.none →
        dispatch_packet handlers p = .ok .missingHandler)
    ∧ (∀ (handlers : Nat → Option Handler) (p : Packet) (h : Handler) (e : PyErr),
        handlers p.type = some h →
        applyAnnots h.annots p.attrs = .error e →
        dispatch_packet handlers p = .error .packetFormatError) := by
  constructor
  · intro handlers p hnone
    simp [dispatch_packet, hnone]
  · intro handlers p h e hsome hfail
    simp [dispatch_packet, hsome, hfail]

/-- C8 witness: a concrete table with one handler for the log packet
whose `text` coercion models `bytes.decode` (it fails on a non-bytes
value); a ping packet has no handler and returns the unhandled outcome,
and a log packet whose `text` attribute is an integer raises
`PacketFormatError`. -/
theorem c8_witness :
    dispatch_packet
      (fun t =>
        if t = 4 then
          some ⟨[("text", fun v =>
                   match v with
                   | .bytes b => .ok (.str (String.mk (b.map Char.ofNat)))
                   | _ => .error .typeError)],
                fun _ => .ok PyVal.none⟩
        else Option.none)
      ⟨7, [("data", PyVal.bytes (bstr "ping"))]⟩ = .ok .missingHandler
    ∧ dispatch_packet
      (fun t =>
        if t = 4 then
          some ⟨[("text", fun v =>
                   match v with
                   | .bytes b => .ok (.str (String.mk (b.map Char.ofNat)))
                   | _ => .error .typeError)],
                fun _ => .ok PyVal.none⟩
        else Option.none)
      ⟨4, [("text", PyVal.int 7)]⟩ = .error .packetFormatError := by
  constructor
  · exact c8_dispatch_behavior.1 _ _ (by rfl)
  · exact c8_dispatch_behavior.2 _ _ _ .typeError (by rfl) (by rfl)

/-- A key absent from the entry list is not found. -/
theorem lookupTake_eq_none {k : List Nat}
    {l : List (List Nat × PRes (Option PyVal))}
    (h : k ∉ l.map Prod.fst) : lookupTake k l = Option.none := by
  induction l with
  | nil => rfl
  | cons p rest ih =>
      obtain ⟨k0, v0⟩ := p
      simp only [List.map_cons, List.mem_cons, not_or] at h
      have hb : (k0 == k) = false := by
        simp only [beq_eq_false_iff_ne]
        exact fun e => h.1 e.symm
      simp [lookupTake, hb, ih h.2]

/-- A key whose first occurrence follows `pre` is found there, and the
remaining entries keep their order. -/
theorem lookupTake_append_hit (k : List Nat) (v : PRes (Option PyVal))
    (pre post : List (List Nat × PRes (Option PyVal)))
    (h : k ∉ pre.map Prod.fst) :
    lookupTake k (pre ++ (k, v) :: post) = some (v, pre ++ post) := by
  induction pre with
  | nil => simp [lookupTake]
  | cons p rest ih =>
      obtain ⟨k0, v0⟩ := p
      simp only [List.map_cons, List.mem_cons, not_or] at h
      have hb : (k0 == k) = false := by
        simp only [beq_eq_false_iff_ne]
        exact fun e => h.1 e.symm
      simp [lookupTake, hb, ih h.2]

/-- C9 (spec-modelled): decode results for inputs shorter than the
100-byte threshold are memoized in the LRU Decode Cache keyed by the
exact input bytes, longer inputs bypass the cache unchanged; `put` of a
fresh key into a full cache evicts the least-recently-used entry, so a
subsequent `get` for it misses; and a successful `get` moves the entry
to most-recently-used position. -/
theorem c9_lru_decode_cache :
    (∀ (c : LRUCache) (data : List Nat), 100 ≤ data.length →
        cachedDecode c data = (pydecode data, c))
    ∧ (∀ (c : LRUCache) (data : List Nat), data.length < 100 →
        0 < c.capacity → data ∉ c.entries.map Prod.fst →
        (cachedDecode c data).1 = pydecode data ∧
        (((cachedDecode c data).2).getc data).1 = some (pydecode data))
    ∧ (∀ (cap : Nat) (es : List (List Nat × PRes (Option PyVal)))
          (kL k : List Nat) (vL v : PRes (Option PyVal)),
        (es ++ [(kL, vL)]).length = cap →
        k ∉ (es ++ [(kL, vL)]).map Prod.fst →
        kL ∉ es.map Prod.fst → kL ≠ k →
        (((LRUCache.mk cap (es ++ [(kL, vL)])).putc k v).getc kL).1 =
          Option.none)
    ∧ (∀ (cap : Nat) (pre post : List (List Nat × PRes (Option PyVal)))
          (k : List Nat) (v : PRes (Option PyVal)),
        k ∉ pre.map Prod.fst →
        (LRUCache.mk cap (pre ++ (k, v) :: post)).getc k =
          (some v, ⟨cap, (k, v) :: (pre ++ post)⟩)) := by
  refine ⟨?_, ?_, ?_, ?_⟩
  · intro c data h
    simp [cachedDecode, Nat.not_lt.mpr h]
  · intro c data hlen hcap hfresh
    obtain ⟨cap, entries⟩ := c
    have hl := lookupTake_eq_none hfresh
    have hcap1 : 0 < cap := hcap
    obtain ⟨m, rfl⟩ : ∃ m, cap = m + 1 := ⟨cap - 1, by omega⟩
    constructor
    · simp [cachedDecode, hlen, LRUCache.getc, hl]
    · simp [cachedDecode, hlen, LRUCache.getc, LRUCache.putc, hl, lookupTake]
  · intro cap es kL k vL v hlen hk hkL hne
    have hl := lookupTake_eq_none hk
    have hcap : cap = es.length + 1 := by
      simp only [List.length_append, List.length_singleton] at hlen
      omega
    have htake : ((k, v) :: (es ++ [(kL, vL)])).take cap = (k, v) :: es := by
      rw [hcap]
      simp [List.take_left es [(kL, vL)]]
    have hmiss : kL ∉ ((k, v) :: es).map Prod.fst := by
      simp only [List.map_cons, List.mem_cons, not_or]
      exact ⟨hne, hkL⟩
    simp [LRUCache.putc, LRUCache.getc, hl, htake, lookupTake_eq_none hmiss]
  · intro cap pre post k v h
    simp [LRUCache.getc, lookupTake_append_hit k v pre post h]

/-- C9 witness: the four parts of the cache theorem at concrete inputs —
a 100-byte input bypasses an empty-but-capacity-2 cache; `b"i5e"` is
memoized; a fresh put into a full capacity-2 cache evicts the oldest key
`[98]`; and a hit on `[98]` behind one other entry moves it to the
front. -/
theorem c9_witness :
    cachedDecode ⟨2, []⟩ (List.replicate 100 48) =
      (pydecode (List.replicate 100 48), ⟨2, []⟩)
    ∧ ((cachedDecode ⟨2, []⟩ (bstr "i5e")).1 = pydecode (bstr "i5e") ∧
       (((cachedDecode ⟨2, []⟩ (bstr "i5e")).2).getc (bstr "i5e")).1 =
         some (pydecode (bstr "i5e")))
    ∧ (((LRUCache.mk 2 ([([97], .ok Option.none)] ++ [([98], .ok Option.none)])).putc
          [99] (.ok Option.none)).getc [98]).1 = Option.none
    ∧ (LRUCache.mk 3 ([([97], .ok Option.none)] ++ ([98], .ok Option.none) :: [])).getc
        [98] = (some (.ok Option.none), ⟨3, ([98], .ok Option.none) :: ([([97], .ok Option.none)] ++ [])⟩) := by
  refine ⟨?_, ?_, ?_, ?_⟩
  · exact c9_lru_decode_cache.1 ⟨2, []⟩ (List.replicate 100 48) (by decide)
  · exact c9_lru_decode_cache.2.1 ⟨2, []⟩ (bstr "i5e") (by decide) (by decide)
      (by decide)
  · exact c9_lru_decode_cache.2.2.1 2 [([97], .ok Option.none)] [98] [99]
      (.ok Option.none) (.ok Option.none) (by decide) (by decide) (by decide)
      (by decide)
  · exact c9_lru_decode_cache.2.2.2 3 [([97], .ok Option.none)] [] [98]
      (.ok Option.none) (by decide)

/-- A digit byte is not the terminator `'e'` (101). -/
theorem isDigitByte_ne_e {c : Nat} (h : isDigitByte c = true) : (c == 101) = false := by
  simp only [isDigitByte, Bool.and_eq_true, decide_eq_true_eq] at h
  simp only [beq_eq_false_iff_ne]
  omega

/-- Splitting a window that starts with a digit run followed by the
terminator finds exactly that run. -/
theorem splitAtByte_take (n : Nat) (ds tail : List Nat)
    (hd : ds.all isDigitByte) (hn : ds.length < n) :
    splitAtByte 101 ((ds ++ 101 :: tail).take n) =
      some (ds, tail.take (n - ds.length - 1)) := by
  induction ds generalizing n with
  | nil =>
      obtain ⟨m, rfl⟩ : ∃ m, n = m + 1 := ⟨n - 1, by omega⟩
      simp [splitAtByte, List.take_succ_cons]
  | cons d ds' ih =>
      simp only [List.all_cons, Bool.and_eq_true] at hd
      obtain ⟨m, rfl⟩ : ∃ m, n = m + 1 := ⟨n - 1, by omega⟩
      have hne := isDigitByte_ne_e hd.1
      have harith : m + 1 - (d :: ds').length - 1 = m - ds'.length - 1 := by
        simp only [List.length_cons]
        omega
      rw [harith]
      simp only [List.cons_append, List.take_succ_cons, splitAtByte, hne,
        Bool.false_eq_true, if_false, List.append_eq]
      rw [ih m hd.2 (by simp only [List.length_cons] at hn; omega)]
      simp

/-- A successful split reassembles the input around the first
occurrence of the byte. -/
theorem splitAtByte_sound {b : Nat} {l p q : List Nat}
    (h : splitAtByte b l = some (p, q)) : l = p ++ b :: q := by
  induction l generalizing p q with
  | nil => simp [splitAtByte] at h
  | cons c rest ih =>
      simp only [splitAtByte] at h
      by_cases hc : (c == b) = true
      · have hcb : c = b := by simpa using hc
        rw [if_pos hc] at h
        simp only [Option.some_inj, Prod.mk.injEq] at h
        obtain ⟨h1, h2⟩ := h
        subst h1
        subst h2
        subst hcb
        simp
      · rw [if_neg hc] at h
        cases hs : splitAtByte b rest with
        | none => rw [hs] at h; simp at h
        | some pq =>
            obtain ⟨p', q'⟩ := pq
            rw [hs] at h
            simp only [Option.map_some', Option.some_inj, Prod.mk.injEq] at h
            obtain ⟨h1, h2⟩ := h
            subst h1
            subst h2
            simp [ih hs]

/-- `str(n)` of a non-negative integer is the decimal of the natural. -/
theorem intDec_natCast (t : Nat) : intDec (t : Int) = natDec t := by
  rw [intDec, if_neg (by exact Int.not_lt.mpr (Int.natCast_nonneg t))]
  simp

/-- A generic encoding of a packet list whose tag prints as at most five
digit bytes is peeked back to the tag without decoding the body. -/
theorem peek_type_encode (t : Nat) (attrs : List PyVal) (fuel : Nat)
    (bs : List Nat)
    (h1 : (natDec t).length < 6) (h2 : (natDec t).all isDigitByte)
    (h3 : natDec t ≠ []) (h4 : natOfDigits (natDec t) = t)
    (henc : addEncode fuel (.list (.int (t : Int) :: attrs)) = .ok bs) :
    peek_type bs = some t := by
  cases fuel with
  | zero => simp [addEncode] at henc
  | succ f =>
      simp only [addEncode] at henc
      cases hal : addEncodeList f (.int (t : Int) :: attrs) with
      | error e => rw [hal] at henc; simp at henc
      | ok parts =>
          rw [hal] at henc
          simp only [Except.ok.injEq] at henc
          subst henc
          cases f with
          | zero => simp [addEncodeList] at hal
          | succ g =>
              simp only [addEncodeList, addEncode] at hal
              cases her : addEncodeList g attrs with
              | error e => rw [her] at hal; simp at hal
              | ok er =>
                  rw [her] at hal
                  simp only [Except.ok.injEq] at hal
                  subst hal
                  rw [intDec_natCast]
                  simp only [List.cons_append, List.append_assoc,
                    List.singleton_append, List.nil_append]
                  simp only [peek_type]
                  rw [splitAtByte_take 6 (natDec t) (er ++ [101]) h2 h1]
                  simp [h3, h2, h4]

/-- C10: for every registered packet type tag and every successful
generic encoding of an instance, `peek_type` recovers the tag from the
wire prefix alone; and whenever `peek_type` returns a value, the input
began with `b'l'`, `b'i'`, a non-empty digit run and the terminator
`b'e'` — so any input not of that shape yields `None`. -/
theorem c10_peek_type :
    (∀ (t : Nat) (schema : List (String × PyType)) (attrs : List PyVal)
        (fuel : Nat) (bs : List Nat),
        (t, schema) ∈ registryList →
        addEncode fuel (.list (.int (t : Int) :: attrs)) = .ok bs →
        peek_type bs = some t)
    ∧ (∀ (data : List Nat) (r : Nat), peek_type data = some r →
        ∃ ds rest, data = 108 :: 105 :: (ds ++ 101 :: rest)
          ∧ ds ≠ [] ∧ ds.all isDigitByte = true ∧ r = natOfDigits ds) := by
  constructor
  · intro t schema attrs fuel bs hmem henc
    fin_cases hmem <;>
      exact peek_type_encode _ attrs fuel bs (by decide) (by decide) (by decide)
        (by decide) henc
  · intro data r h
    rw [peek_type.eq_def] at h
    split at h
    · rename_i rest
      split at h
      · rename_i pair ds after heq
        split at h
        · rename_i hcond
          simp only [Option.some_inj] at h
          simp only [Bool.and_eq_true, ne_eq, decide_eq_true_eq] at hcond
          have hsplit := splitAtByte_sound heq
          refine ⟨ds, after ++ rest.drop 6, ?_, hcond.1, hcond.2, h.symm⟩
          have hr : rest = ds ++ 101 :: (after ++ rest.drop 6) := by
            conv_lhs => rw [← List.take_append_drop 6 rest]
            rw [hsplit]
            simp
          conv_lhs => rw [hr]
        · simp at h
      · simp at h
    · simp at h

/-- C10 witness: the first part applied to the registered Null tag with
no attributes, and the second to a concrete peekable prefix. -/
theorem c10_witness :
    peek_type (bstr "li0ee") = some 0
    ∧ ∃ ds rest, bstr "li7ee" = 108 :: 105 :: (ds ++ 101 :: rest)
        ∧ ds ≠ [] ∧ ds.all isDigitByte = true ∧ 7 = natOfDigits ds := by
  constructor
  · exact c10_peek_type.1 0 [] [] 3 (bstr "li0ee") (by decide) (by rfl)
  · exact c10_peek_type.2 (bstr "li7ee") 7 (by rfl)

/-- C5: the claim says a response whose command id is not pending is
logged and dropped, the handler returning normally; on the code, the
`except KeyError` branch of `on_command` (client.py lines 282-284)
evaluates `command_result.set(None)` although `command_result` was never
bound on that path, raising `UnboundLocalError`. -/
theorem c5_unknown_response_raises :
    on_command [((1 : Int), commandResult_new "command_add_route")] 2
      (PyVal.dict [(PyVal.bytes (bstr "status"), PyVal.bytes (bstr "ok"))]) =
    .error .nameError := by
  rfl

end M2M
